import Mathlib

/-!
Verification of the CORSIKA binary shower reader (IceCube corsika_reader).

Shallow embedding of the reader core:
 * `src/src/corsika/RawStream.cxx`            — framed block stream over disk sectors
 * `src/src/corsika/RawParticleIterator.cxx`  — per-event particle iterator
 * `src/src/corsika/CorsikaShowerFile.cxx`    — shower facade (Read / FindEvent / long profiles)

Modelling conventions:
 * Machine integers are `Nat`/`Int`; the 64/32-bit reinterpretation in shape
   detection is made explicit with `% 2^64` / `% 2^32` and a two's-complement
   signed view.
 * Real-valued record fields (observation heights, longitudinal entries, ...)
   are carried as `Int`: no claim performs floating-point arithmetic, only
   selection, indexing and zero tests, which are preserved.
 * Fallible code (C++ exceptions, boolean read results) returns `Except`
   values; the error constructors name the conditions of the spec's taxonomy.
 * The byte source is seekable (claims about seeking are stated for seekable
   sources; the non-seekable dumb-seek branch of `RawStream::SeekTo`, which
   does not terminate when seeking past EOF, is outside every claim).
 * A disk file is a list of whole sectors (`DiskBlock`); short trailing reads
   (`TruncatedFile` conditions) are outside every claim considered here.
-/

/-! ## Record-layout constants

Modelled from the spec: the template constants of `CorsikaBlock.h`
(`Thinned::kBytesPerBlock` etc.) are not under `src/`; §6 of the spec fixes
`Thinned.bytes_per_sub_block = 312 × 4`, `NotThinned.bytes_per_sub_block =
273 × 4`, `Thinned.sub_blocks_per_sector = 1`,
`NotThinned.sub_blocks_per_sector = 21`. -/

def Thinned.kBytesPerBlock : Int := 312 * 4

def NotThinned.kBytesPerBlock : Int := 273 * 4

def Thinned.kSubBlocksPerBlock : Nat := 1

def NotThinned.kSubBlocksPerBlock : Nat := 21

/-! ## Errors and statuses -/

/-- C++ exceptions thrown by the reader stack, named after the spec's error
taxonomy (§7).  `FramingError` is `CorsikaIOException("Padding mismatch")`,
`UnknownShape` is `CorsikaIOException("Can't determine type of corsika file")`,
`IteratorExhausted` is `IOException("RawParticleIterator not valid.")`,
`ErrorReadingBlock` is `IOException("Error reading block in CORSIKA file.")`.
`OutOfFuel` is a modelling device: it bounds the unrolling of the spec-modelled
skip loop of the facade particle iterator and corresponds to no source path. -/
inductive CorsikaErr where
  | FramingError
  | UnknownShape
  | IteratorExhausted
  | ErrorReadingBlock
  | OutOfFuel
deriving DecidableEq, Repr

/-- `corsika::Status` (returned by `CorsikaShowerFile` operations). -/
inductive Status where
  | eSuccess
  | eFail
  | eEOF
deriving DecidableEq, Repr

/-! ## Typed logical blocks

The block classifier (spec §4.D) tags each fixed-length sub-block by its
first four bytes; the embedding works at this typed level. -/

/-- One entry of an in-stream longitudinal block
(`Block<Thinning>::LongitudinalEntry`). Real fields carried as `Int`. -/
structure LongEntry where
  fDepth : Int
  fGamma : Int
  fEplus : Int
  fEminus : Int
  fMuPlus : Int
  fMuMinus : Int
  fCharged : Int
deriving DecidableEq, Repr, Inhabited

/-- A particle record (`ParticleData<Thinning>`); only the composite
description word (particle id encoding) is inspected by the claims. -/
structure ParticleData where
  fDescription : Int
deriving DecidableEq, Repr, Inhabited

/-- The event-header fields read by `CorsikaShowerFile::Read`
(`corsika::EventHeader`).  Real fields carried as `Int`. -/
structure EventHeaderData where
  fEventNumber : Nat
  fObservationLevels : Nat
  fObservationHeight : List Int
  fZFirst : Int
  fTheta : Int
  fFlagCurved : Bool
  fParticleId : Nat
  fStartingHeight : Int
deriving DecidableEq, Repr, Inhabited

/-- A logical sub-block, after classification by its 4-byte tag
(`RUNH`/`RUNE`/`EVTH`/`EVTE`/`LONG`, anything else being particle data). -/
inductive Block where
  | runHeader
  | runEnd
  | eventHeader (h : EventHeaderData)
  | eventTrailer
  | longitudinal (fStepsAndBlocks : Nat) (fEntries : List LongEntry)
  | particleBlock (particles : List ParticleData)
deriving DecidableEq, Repr, Inhabited

def Block.IsControl : Block → Bool
  | .runHeader => true
  | .runEnd => true
  | .eventHeader _ => true
  | .eventTrailer => true
  | _ => false

def Block.IsLongitudinal : Block → Bool
  | .longitudinal _ _ => true
  | _ => false

def Block.IsRunHeader : Block → Bool
  | .runHeader => true
  | _ => false

def Block.IsEventHeader : Block → Bool
  | .eventHeader _ => true
  | _ => false

def Block.IsEventTrailer : Block → Bool
  | .eventTrailer => true
  | _ => false

/-- `Block::AsEventHeader` — the reinterpretation is only applied after a
successful `IsEventHeader` check; other cases are unreachable there. -/
def Block.AsEventHeader : Block → EventHeaderData
  | .eventHeader h => h
  | _ => default

/-- `Block::AsParticleBlock.fParticle` — reinterprets the block as an array of
particle records. In `GetOneParticle` this is only reached for blocks that are
neither control nor longitudinal, i.e. particle blocks. -/
def Block.AsParticleBlock : Block → List ParticleData
  | .particleBlock ps => ps
  | _ => []

/-- `Block::AsLongitudinalBlock().fStepsAndBlocks`.  `ReadLongBlocks` applies
the cast to the blocks following the first without re-checking the tag; the
reinterpretation of a non-longitudinal block reads unspecified values,
modelled as `0` / `[]`. -/
def Block.stepsAndBlocks : Block → Nat
  | .longitudinal s _ => s
  | _ => 0

/-- `Block::AsLongitudinalBlock().fEntries` (same caveat as
`Block.stepsAndBlocks`). -/
def Block.AsLongEntries : Block → List LongEntry
  | .longitudinal _ es => es
  | _ => []

/-! ## Shape detection (`VRawStream::Create`, RawStream.cxx:228-248) -/

/-- File shape: thinning mode of the particle records. -/
inductive Thinning where
  | Thinned
  | NotThinned
deriving DecidableEq, Repr

/-- File shape: width of the sector padding words (the template argument
`Padding` is `2` for 64-bit files and `1` for 32-bit files). -/
inductive WordSize where
  | w64
  | w32
deriving DecidableEq, Repr

/-- Two's-complement signed value of the low `w` bits of `n`. -/
def toSigned (w : Nat) (n : Nat) : Int :=
  let m := n % 2 ^ w
  if m < 2 ^ (w - 1) then (m : Int) else (m : Int) - 2 ^ w

/-- Little-endian unsigned value of a byte list (each byte taken mod 256,
matching the raw memory read of `file->read(8, &len64)` on the
little-endian hosts the reader targets). -/
def leNat : List Nat → Nat
  | [] => 0
  | b :: bs => b % 256 + 256 * leNat bs

/-- `VRawStream::Create` (RawStream.cxx:228-248): reads the first 8 bytes of
the file, views them as a signed 64-bit integer `len64` and its low half as a
signed 32-bit integer `len32`, and resolves the file shape by the four-way
cascade, throwing `UnknownShape` otherwise. -/
def VRawStream.Create (bytes : List Nat) : Except CorsikaErr (Thinning × WordSize) :=
  let len64 : Int := toSigned 64 (leNat (bytes.take 8))
  let len32 : Int := toSigned 32 (leNat (bytes.take 4))
  if len64 = Thinned.kBytesPerBlock then .ok (.Thinned, .w64)
  else if len64 = NotThinned.kBytesPerBlock then .ok (.NotThinned, .w64)
  else if len32 = Thinned.kBytesPerBlock then .ok (.Thinned, .w32)
  else if len32 = NotThinned.kBytesPerBlock then .ok (.NotThinned, .w32)
  else .error .UnknownShape

/-- The resolution cascade exactly as the spec words it (§4.B), as a function
of the two integers `len64` and `len32`; claim C1 compares
`VRawStream.Create` against it. -/
def shapeFromLens (len64 len32 : Int) : Except CorsikaErr (Thinning × WordSize) :=
  if len64 = Thinned.kBytesPerBlock then .ok (.Thinned, .w64)
  else if len64 = NotThinned.kBytesPerBlock then .ok (.NotThinned, .w64)
  else if len32 = Thinned.kBytesPerBlock then .ok (.Thinned, .w32)
  else if len32 = NotThinned.kBytesPerBlock then .ok (.NotThinned, .w32)
  else .error .UnknownShape

/-! ## The framed block stream (`RawStream<Thinning, Padding>`, RawStream.cxx)

The template parameters `Thinning::kSubBlocksPerBlock` and `Padding` appear as
explicit `Nat` arguments `K` and `Padding` of the operations.  The byte source
is a seekable file of whole sectors; the sector-granular cursor `fpos` mirrors
the byte cursor of the `FileStream` (every read and seek of the seekable path
is sector-aligned). -/

/-- One on-disk sector (`RawStream::DiskBlock`): padding words, `K` logical
sub-blocks, padding words. -/
structure DiskBlock where
  padding_start : List Int
  fBlock : List Block
  padding_end : List Int
deriving DecidableEq, Repr, Inhabited

/-- `RawStream::DiskBlock::check_padding` (RawStream.cxx:63-68): compares the
`Padding` start words with the end words, word by word; the source throws
`CorsikaIOException("Padding mismatch")` on the first difference, here the
function reports whether all comparisons pass. -/
def DiskBlock.check_padding (Padding : Nat) (d : DiskBlock) : Bool :=
  (List.range Padding).all fun i =>
    decide (d.padding_start.getD i 0 = d.padding_end.getD i 0)

/-- The mutable state of a `RawStream` object.  `file` is the immutable
content of the underlying `FileStream` (a list of whole sectors), `fpos` the
file's read cursor in sectors. -/
structure RawStreamState where
  file : List DiskBlock
  fpos : Nat
  current_block : Nat
  current_disk_block : Nat
  buffer_valid : Bool
  buffer : DiskBlock
deriving DecidableEq, Repr, Inhabited

/-- `RawStream::ReadDiskBlock` (RawStream.cxx:157-163): read one sector into
the buffer (returning `false` at EOF), check its padding (throwing
`FramingError` on mismatch), mark the buffer valid. -/
def ReadDiskBlock (Padding : Nat) (s : RawStreamState) :
    Except CorsikaErr (Bool × RawStreamState) :=
  if h : s.fpos < s.file.length then
    let blk := s.file.get ⟨s.fpos, h⟩
    let s' := { s with fpos := s.fpos + 1, buffer := blk }
    if blk.check_padding Padding then .ok (true, { s' with buffer_valid := true })
    else .error .FramingError
  else .ok (false, s)

/-- The `RawStream` constructor (RawStream.cxx:71-76).  The 8 bytes consumed
by shape detection are copied into the head of the buffer and the rest of the
first sector is read behind them; at sector granularity the first sector is
`file[0]` whole, the cursor then stands at sector 1.  A file without a full
first sector leaves the buffer invalid. -/
def initRawStream (Padding : Nat) (file : List DiskBlock) :
    Except CorsikaErr RawStreamState :=
  match file with
  | [] => .ok ⟨file, 0, 0, 0, false, default⟩
  | blk :: _ =>
    if blk.check_padding Padding then .ok ⟨file, 1, 0, 0, true, blk⟩
    else .error .FramingError

/-- `RawStream::GetNextPosition` (RawStream.cxx:107-110): logical index of the
block the next `GetNextBlock` call returns. -/
def GetNextPosition (K : Nat) (s : RawStreamState) : Nat :=
  s.current_disk_block + K * s.current_block

/-- `RawStream::GetNextBlockImpl` (RawStream.cxx:88-104): refill the buffer if
invalid (returning `none` at EOF), hand out the sub-block at
`current_disk_block`, and advance, invalidating the buffer when the sector is
exhausted. -/
def GetNextBlockImpl (K Padding : Nat) (s : RawStreamState) :
    Except CorsikaErr (Option Block × RawStreamState) :=
  let step : RawStreamState → Option Block × RawStreamState := fun s =>
    let b := s.buffer.fBlock.getD s.current_disk_block default
    if K ≤ s.current_disk_block + 1 then
      (some b, { s with current_block := s.current_block + 1,
                        current_disk_block := 0, buffer_valid := false })
    else
      (some b, { s with current_disk_block := s.current_disk_block + 1 })
  if s.buffer_valid then .ok (step s)
  else
    match ReadDiskBlock Padding s with
    | .error e => .error e
    | .ok (false, s') => .ok (none, s')
    | .ok (true, s') => .ok (step s')

/-- `RawStream::SeekTo` (RawStream.cxx:115-147), seekable branch: decompose
the target block index into sector and offset, seek the file to that sector
and invalidate the buffer.  (The non-seekable reopen-and-skip branch is not
modelled: all claims about seeking are stated for seekable sources.) -/
def SeekTo (K : Nat) (thePosition : Nat) (s : RawStreamState) : RawStreamState :=
  { s with current_block := thePosition / K,
           current_disk_block := thePosition % K,
           buffer_valid := false,
           fpos := thePosition / K }

/-- `RawStream::IsValid` (RawStream.cxx:174-226), seekable branch: remember
the position and buffer flag, rewind to block 0, read and inspect the first
block and the buffer's padding words, then restore the buffer flag and seek
back.  `kBytesPerBlock` is the per-sub-block byte count of the thinning mode,
so `K * kBytesPerBlock` is the value
`kSubBlocksPerBlock*kParticlesInBlock*sizeof(ParticleData)` compared at
RawStream.cxx:199-200.  When the read fails the C++ inspects a
default-initialised `Block`; this is modelled as `Block.runHeader = default`
(the inspected value does not affect the restored position). -/
def RawStream.IsValid (K Padding : Nat) (kBytesPerBlock : Int)
    (s : RawStreamState) : Except CorsikaErr (Bool × RawStreamState) :=
  let currentBlockNumber := GetNextPosition K s
  let blockBufferValid := s.buffer_valid
  match GetNextBlockImpl K Padding (SeekTo K 0 s) with
  | .error e => .error e
  | .ok (r, s1) =>
    let block := r.getD default
    let fail :=
      r.isNone || !block.IsRunHeader
        || decide (s1.buffer.padding_start.getD 0 0 ≠ (K : Int) * kBytesPerBlock)
        || decide (s1.buffer.padding_start.getD 0 0 ≠ s1.buffer.padding_end.getD 0 0)
    let s2 := { s1 with buffer_valid := blockBufferValid }
    .ok (!fail, SeekTo K currentBlockNumber s2)

/-! ## Reachable stream states and their invariant -/

/-- States of a `RawStream` object reachable from construction through its
public operations (seekable source). -/
inductive Reachable (K Padding : Nat) : RawStreamState → Prop where
  | init {file s} : initRawStream Padding file = .ok s → Reachable K Padding s
  | next {s r s'} : Reachable K Padding s →
      GetNextBlockImpl K Padding s = .ok (r, s') → Reachable K Padding s'
  | seek {s} (p : Nat) : Reachable K Padding s → Reachable K Padding (SeekTo K p s)
  | valid {s kb b s'} : Reachable K Padding s →
      RawStream.IsValid K Padding kb s = .ok (b, s') → Reachable K Padding s'

/-- Consistency of a stream state with its file: the sub-block cursor is in
range, and the buffer, when valid, holds the padding-checked sector
`current_block` with the file cursor just past it; when invalid, the file
cursor stands at sector `current_block`. -/
def StreamInv (K Padding : Nat) (s : RawStreamState) : Prop :=
  s.current_disk_block < K ∧
  (s.buffer_valid = true →
    s.fpos = s.current_block + 1 ∧
    s.current_block < s.file.length ∧
    s.buffer = s.file.getD s.current_block default ∧
    s.buffer.check_padding Padding = true) ∧
  (s.buffer_valid = false → s.fpos = s.current_block)

/-! ## The particle iterator (`RawParticleIterator<Thinning>`,
RawParticleIterator.cxx)

`kParticlesInBlock` (the fixed particle count of a particle block, a constant
of the missing `CorsikaBlock.h`) appears as the explicit argument `kPIB`. -/

/-- The mutable state of a `RawParticleIterator`: the borrowed stream, the
start position, the block held by value, the index into its particle array,
and the validity flag. -/
structure RawParticleIteratorState where
  raw : RawStreamState
  start : Nat
  block : Block
  current_particle : Nat
  valid : Bool
deriving DecidableEq, Repr, Inhabited

/-- The `RawParticleIterator` constructor plus `Rewind`
(RawParticleIterator.cxx:16-22, 39-44): replace a zero start position by the
stream's current position, then seek to `start`, set the particle index past
the end and mark the iterator valid. -/
def RawParticleIterator.init (K : Nat) (kPIB : Nat) (raw : RawStreamState)
    (start : Nat) : RawParticleIteratorState :=
  let start := if start = 0 then GetNextPosition K raw else start
  { raw := SeekTo K start raw, start := start, block := default,
    current_particle := kPIB, valid := true }

/-- `RawParticleIterator::GetOneParticle` (RawParticleIterator.cxx:45-62):
when the particle index has reached `kParticlesInBlock`, fail
`IteratorExhausted` if already invalid, otherwise fetch the next block from
the stream (failing `ErrorReadingBlock` when the stream ends); a control or
longitudinal block ends the particle records (`none`, iterator invalidated),
any other block restarts the index at `0`.  Otherwise hand out the record at
the current index and advance. -/
def GetOneParticle (K Padding kPIB : Nat) (it : RawParticleIteratorState) :
    Except CorsikaErr (Option ParticleData × RawParticleIteratorState) :=
  if it.current_particle = kPIB then
    if it.valid = false then .error .IteratorExhausted
    else
      match GetNextBlockImpl K Padding it.raw with
      | .error e => .error e
      | .ok (none, _) => .error .ErrorReadingBlock
      | .ok (some b, raw') =>
        if b.IsControl || b.IsLongitudinal then
          .ok (none, { it with raw := raw', block := b, valid := false })
        else
          .ok (some (b.AsParticleBlock.getD 0 default),
               { it with raw := raw', block := b, current_particle := 1 })
  else
    .ok (some (it.block.AsParticleBlock.getD it.current_particle default),
         { it with current_particle := it.current_particle + 1 })

/-- Modelled from the spec: `CorsikaShowerFileParticleIterator` — the
iterator handed to consumers by the shower facade — is not under `src/`
(only its construction site in `CorsikaShowerFile.cxx` is).  Spec §4.F:
"Return record at current index; advance.  Skip records whose particle id is
zero (padding)."  `next()` therefore pulls records from
`RawParticleIterator::GetOneParticle` and skips those with a zero id.  The
`fuel` argument bounds the unrolling of the skip loop (the source's loop is
bounded by the finite stream); exhaustion yields the artificial `OutOfFuel`
error. -/
def CorsikaShowerFileParticleIterator.next (K Padding kPIB : Nat) :
    Nat → RawParticleIteratorState →
    Except CorsikaErr (Option ParticleData × RawParticleIteratorState)
  | 0, _ => .error .OutOfFuel
  | fuel + 1, it =>
    match GetOneParticle K Padding kPIB it with
    | .error e => .error e
    | .ok (none, it') => .ok (none, it')
    | .ok (some p, it') =>
      if p.fDescription = 0 then CorsikaShowerFileParticleIterator.next K Padding kPIB fuel it'
      else .ok (some p, it')

/-! ## The shower facade (`CorsikaShowerFile`, CorsikaShowerFile.cxx)

`Block<Thinning>::kLongEntriesPerBlock` — the fixed entry count of a
longitudinal block, a constant of the missing `CorsikaBlock.h` — appears as
the explicit argument `kLEPB`. -/

/-- The event index (`fIndex`, a `corsika::FileIndex` produced by
`RawStream::Scan`; its fields are those dereferenced in
CorsikaShowerFile.cxx: three position vectors and the id-to-slot map). -/
structure CorsikaFileIndex where
  eventHeaders : List Nat
  eventTrailers : List Nat
  longBlocks : List Nat
  IDToPosition : List (Nat × Nat)
deriving DecidableEq, Repr, Inhabited

/-- A longitudinal profile (`corsika::CorsikaLongProfile`; the fields are
those copied in CorsikaShowerFile.cxx:310-320). -/
structure CorsikaLongProfile where
  fdEdX : List Int
  fChargeProfile : List Int
  fGammaProfile : List Int
  fElectronProfile : List Int
  fMuonProfile : List Int
  fDepth_dE : List Int
  fDepth : List Int
  fGaisserHillas : List Int
  fCalorimetricEnergy : Int
deriving DecidableEq, Repr, Inhabited

/-- The parts of `corsika::CorsikaShower` written by `CorsikaShowerFile`:
the event header and the longitudinal-profile columns.  A freshly
constructed shower (CorsikaShowerFile.cxx:250) has empty profile columns. -/
structure CorsikaShower where
  fHeader : EventHeaderData
  fdEdX : List Int
  fChargeProfile : List Int
  fGammaProfile : List Int
  fElectronProfile : List Int
  fMuonProfile : List Int
  fDepth_dE : List Int
  fDepth : List Int
  fGaisserHillas : List Int
  fCalorimetricEnergy : Int
deriving DecidableEq, Repr, Inhabited

/-- `CorsikaShower(header, trailer, particleIterator)`
(CorsikaShowerFile.cxx:250): a fresh shower with empty profile columns. -/
def CorsikaShower.fresh (header : EventHeaderData) : CorsikaShower :=
  { fHeader := header, fdEdX := [], fChargeProfile := [], fGammaProfile := [],
    fElectronProfile := [], fMuonProfile := [], fDepth_dE := [], fDepth := [],
    fGaisserHillas := default, fCalorimetricEnergy := 0 }

/-- The mutable state of a `CorsikaShowerFile`.  `isOpen` is the
non-nullness of `fRawStream`; `fLongFile` records whether the `.long`
side file exists (`fLongFile != ""`); `sideProfiles` stands for the parsed
content of `fCorsikaLongFile` — modelled from the spec (§4.H): the side-file
parser (`CorsikaLongFile.cxx`, not under `src/`) "produces a sequence of
profiles indexed by position", with `size()` its length. -/
structure CorsikaShowerFileState where
  isOpen : Bool
  raw : RawStreamState
  fIndex : CorsikaFileIndex
  fCurrentPosition : Nat
  fObservationLevel : Nat
  fLongFile : Bool
  sideProfiles : List CorsikaLongProfile
  fCurrentShower : CorsikaShower
deriving DecidableEq, Repr, Inhabited

/-! ### Observation-level clamp and time-shift height
(CorsikaShowerFile.cxx:189-201) -/

/-- CorsikaShowerFile.cxx:189-197: the requested observation level after the
range check (`fObservationLevel > header.fObservationLevels` falls back to 1
with a warning). -/
def clampObservationLevel (fObservationLevel : Nat) (header : EventHeaderData) : Nat :=
  if header.fObservationLevels < fObservationLevel then 1 else fObservationLevel

/-- CorsikaShowerFile.cxx:200-201: the observation height fed into the
time-shift computation,
`header.fObservationHeight[int(header.fObservationLevels) - 1]`. -/
def heightObsLevel (header : EventHeaderData) : Int :=
  header.fObservationHeight.getD (header.fObservationLevels - 1) 0

/-! ### In-stream longitudinal assembler
(`CorsikaShowerFile::ReadLongBlocks`, CorsikaShowerFile.cxx:340-424) -/

/-- The seven accumulator vectors of `ReadLongBlocks`
(CorsikaShowerFile.cxx:365-371). -/
structure ProfileCols where
  auxDeltaEn : List Int
  auxCharge : List Int
  auxGammas : List Int
  auxElectrons : List Int
  auxMuons : List Int
  auxDepth_dE : List Int
  auxDepth : List Int
deriving DecidableEq, Repr, Inhabited

def emptyCols : ProfileCols := ⟨[], [], [], [], [], [], []⟩

/-- The seven `push_back` calls of one loop body
(CorsikaShowerFile.cxx:380-386 and 401-407). -/
def pushEntry (e : LongEntry) (c : ProfileCols) : ProfileCols :=
  { auxDeltaEn := c.auxDeltaEn ++ [0],
    auxCharge := c.auxCharge ++ [e.fCharged],
    auxGammas := c.auxGammas ++ [e.fGamma],
    auxElectrons := c.auxElectrons ++ [e.fEplus + e.fEminus],
    auxMuons := c.auxMuons ++ [e.fMuPlus + e.fMuMinus],
    auxDepth_dE := c.auxDepth_dE ++ [e.fDepth],
    auxDepth := c.auxDepth ++ [e.fDepth] }

/-- The per-block entry loop of `ReadLongBlocks`
(CorsikaShowerFile.cxx:377-387 for the first block with `j = i`, 398-408 for
the following blocks): `remaining` counts the entry slots left in this block
(`kLongEntriesPerBlock - j`), `j` is the index into the block, `i` the
running global entry count; an entry with zero depth at global index `> 0`
breaks out of this block's loop. -/
def longLoop (entries : List LongEntry) :
    Nat → Nat → Nat → ProfileCols → ProfileCols × Nat
  | 0, _, i, cols => (cols, i)
  | r + 1, j, i, cols =>
    let e := entries.getD j default
    if i ≠ 0 ∧ e.fDepth = 0 then (cols, i)
    else longLoop entries r (j + 1) (i + 1) (pushEntry e cols)

/-- Result of the outer block loop of `ReadLongBlocks`: `fail` is the
`return eFail` on a failed block read (CorsikaShowerFile.cxx:390-396). -/
inductive LongLoopOut where
  | fail (raw : RawStreamState)
  | done (raw : RawStreamState) (cols : ProfileCols) (i : Nat)
deriving DecidableEq, Repr

/-- The outer loop `for (int b = 1; b < nBlocks; ++b)` of `ReadLongBlocks`
(CorsikaShowerFile.cxx:389-409): `count = nBlocks - 1` iterations, each
fetching the next block from the stream — without re-checking its tag — and
running the entry loop on its reinterpreted entries. -/
def longOuter (K Padding kLEPB : Nat) :
    Nat → RawStreamState → ProfileCols → Nat → Except CorsikaErr LongLoopOut
  | 0, raw, cols, i => .ok (.done raw cols i)
  | n + 1, raw, cols, i =>
    match GetNextBlockImpl K Padding raw with
    | .error e => .error e
    | .ok (none, raw') => .ok (.fail raw')
    | .ok (some b, raw') =>
      let ci := longLoop b.AsLongEntries kLEPB 0 i cols
      longOuter K Padding kLEPB n raw' ci.1 ci.2

/-- `CorsikaShowerFile::ReadLongBlocks` (CorsikaShowerFile.cxx:340-424): seek
to the recorded chain start for the current slot (an unchecked
`fIndex.longBlocks[fCurrentPosition]` vector access: an out-of-range slot
reads out of bounds in the C++, modelled as `getD _ 0`), read the first block
(which must be longitudinal), decode `nBlocks` as `fStepsAndBlocks % 100`
(the quotient `fStepsAndBlocks / 100` — the step count — is only mentioned in
a commented-out print), collect entries, and store the seven columns into the
current shower. -/
def ReadLongBlocks (K Padding kLEPB : Nat) (s : CorsikaShowerFileState) :
    Except CorsikaErr (Status × CorsikaShowerFileState) :=
  let raw1 := SeekTo K (s.fIndex.longBlocks.getD s.fCurrentPosition 0) s.raw
  match GetNextBlockImpl K Padding raw1 with
  | .error e => .error e
  | .ok (none, raw2) => .ok (.eFail, { s with raw := raw2 })
  | .ok (some b, raw2) =>
    if !b.IsLongitudinal then .ok (.eFail, { s with raw := raw2 })
    else
      let nBlocks := b.stepsAndBlocks % 100
      let ci := longLoop b.AsLongEntries kLEPB 0 0 emptyCols
      match longOuter K Padding kLEPB (nBlocks - 1) raw2 ci.1 ci.2 with
      | .error e => .error e
      | .ok (.fail raw3) => .ok (.eFail, { s with raw := raw3 })
      | .ok (.done raw3 cols _) =>
        let shower := { s.fCurrentShower with
                        fdEdX := cols.auxDeltaEn,
                        fChargeProfile := cols.auxCharge,
                        fGammaProfile := cols.auxGammas,
                        fElectronProfile := cols.auxElectrons,
                        fMuonProfile := cols.auxMuons,
                        fDepth_dE := cols.auxDepth_dE,
                        fDepth := cols.auxDepth }
        .ok (.eSuccess, { s with raw := raw3, fCurrentShower := shower })

/-! ### Side-file profile (`CorsikaShowerFile::ReadLongFile`,
CorsikaShowerFile.cxx:302-337) -/

/-- `CorsikaShowerFile::ReadLongFile`: when the side file has data for the
current slot (the source's guard is the non-strict `size() >=
fCurrentPosition`), copy the `fCurrentPosition`-th profile into the current
shower (`GetProfile` modelled from the spec as positional access; at
`fCurrentPosition = size()` the C++ reads past the parsed sections —
unspecified, modelled by the `getD` default); otherwise clear the profile,
zero the calorimetric energy and reset the Gaisser-Hillas parameters. -/
def ReadLongFile (s : CorsikaShowerFileState) : Status × CorsikaShowerFileState :=
  if s.fCurrentPosition ≤ s.sideProfiles.length then
    let p := s.sideProfiles.getD s.fCurrentPosition default
    let shower := { s.fCurrentShower with
                    fdEdX := p.fdEdX,
                    fChargeProfile := p.fChargeProfile,
                    fGammaProfile := p.fGammaProfile,
                    fElectronProfile := p.fElectronProfile,
                    fMuonProfile := p.fMuonProfile,
                    fDepth_dE := p.fDepth_dE,
                    fDepth := p.fDepth,
                    fGaisserHillas := p.fGaisserHillas,
                    fCalorimetricEnergy := p.fCalorimetricEnergy }
    (.eSuccess, { s with fCurrentShower := shower })
  else
    let shower := { s.fCurrentShower with
                    fdEdX := [], fChargeProfile := [], fGammaProfile := [],
                    fElectronProfile := [], fMuonProfile := [], fDepth_dE := [],
                    fDepth := [], fGaisserHillas := default, fCalorimetricEnergy := 0 }
    (.eSuccess, { s with fCurrentShower := shower })

/-! ### Reading the current event (`CorsikaShowerFile::Read<Thinning>`,
CorsikaShowerFile.cxx:142-260) -/

/-- The longitudinal-profile step at the end of `Read`
(CorsikaShowerFile.cxx:252-255): the in-stream assembler runs whenever the
index recorded any longitudinal block at all (`fIndex.longBlocks.size() >
0`); only otherwise, and only when the side file exists, is the side file
consulted; the returned `Status` of either call is discarded by `Read`. -/
def readProfileStep (K Padding kLEPB : Nat) (s : CorsikaShowerFileState) :
    Except CorsikaErr (Status × CorsikaShowerFileState) :=
  if 0 < s.fIndex.longBlocks.length then ReadLongBlocks K Padding kLEPB s
  else if s.fLongFile then .ok (ReadLongFile s)
  else .ok (.eSuccess, s)

/-- `CorsikaShowerFile::Read<Thinning>` (CorsikaShowerFile.cxx:142-260):
end-of-file when closed or past the last indexed event; seek to and read the
event header and trailer blocks (failing `eFail` when missing or
mis-classified); clamp the observation level; build a fresh current shower
from the header (the floating-point time-shift trigonometry of lines 215-239
selects its integer inputs via `clampObservationLevel`/`heightObsLevel` and
is otherwise not modelled); run the profile step; advance the slot cursor. -/
def CorsikaShowerFile.Read (K Padding kLEPB : Nat) (s : CorsikaShowerFileState) :
    Except CorsikaErr (Status × CorsikaShowerFileState) :=
  if s.isOpen = false ∨ s.fIndex.eventHeaders.length ≤ s.fCurrentPosition then
    .ok (.eEOF, s)
  else
    let raw1 := SeekTo K (s.fIndex.eventHeaders.getD s.fCurrentPosition 0) s.raw
    match GetNextBlockImpl K Padding raw1 with
    | .error e => .error e
    | .ok (none, raw2) => .ok (.eFail, { s with raw := raw2 })
    | .ok (some hb, raw2) =>
      if !hb.IsEventHeader then .ok (.eFail, { s with raw := raw2 })
      else
        let header := hb.AsEventHeader
        let raw3 := SeekTo K (s.fIndex.eventTrailers.getD s.fCurrentPosition 0) raw2
        match GetNextBlockImpl K Padding raw3 with
        | .error e => .error e
        | .ok (none, raw4) => .ok (.eFail, { s with raw := raw4 })
        | .ok (some tb, raw4) =>
          if !tb.IsEventTrailer then .ok (.eFail, { s with raw := raw4 })
          else
            let s1 := { s with
                        raw := raw4,
                        fObservationLevel := clampObservationLevel s.fObservationLevel header,
                        fCurrentShower := CorsikaShower.fresh header }
            match readProfileStep K Padding kLEPB s1 with
            | .error e => .error e
            | .ok (_, s2) =>
              .ok (.eSuccess, { s2 with fCurrentPosition := s2.fCurrentPosition + 1 })

/-- Lookup in the id-to-slot map (`fIndex.IDToPosition.find(eventId)`). -/
def IDToPosition.lookup (m : List (Nat × Nat)) (eventId : Nat) : Option Nat :=
  (m.find? fun p => p.1 == eventId).map (·.2)

/-- `CorsikaShowerFile::FindEvent` (CorsikaShowerFile.cxx:263-277): `eEOF`
when closed; `eFail` — the spec's non-fatal `NotFound` — when the id is
absent from the map (or maps to an out-of-range slot), leaving all state
untouched; otherwise move the cursor to the slot and read the event. -/
def CorsikaShowerFile.FindEvent (K Padding kLEPB : Nat) (eventId : Nat)
    (s : CorsikaShowerFileState) : Except CorsikaErr (Status × CorsikaShowerFileState) :=
  if s.isOpen = false then .ok (.eEOF, s)
  else
    match IDToPosition.lookup s.fIndex.IDToPosition eventId with
    | none => .ok (.eFail, s)
    | some slot =>
      if s.fIndex.eventHeaders.length ≤ slot then .ok (.eFail, s)
      else CorsikaShowerFile.Read K Padding kLEPB { s with fCurrentPosition := slot }

/-! ## Concrete test fixtures

Small concrete files and reader states used by the witnesses and
counterexamples below. -/

/-- A well-formed one-sector file for a shape with `K = 1`, `Padding = 1`:
padding words carry the sub-block byte count `1 * 1248`. -/
def secRun : DiskBlock := ⟨[1248], [.runHeader], [1248]⟩

/-- The stream state produced by constructing a `RawStream` over
`[secRun]`. -/
def rawRun : RawStreamState := ⟨[secRun], 1, 0, 0, true, secRun⟩

/-- A sector whose padding words are equal but differ from
`K × bytes_per_sub_block`. -/
def secOddPad : DiskBlock := ⟨[7], [.runHeader], [7]⟩

/-- The stream state produced by constructing a `RawStream` over
`[secOddPad]`. -/
def rawOddPad : RawStreamState := ⟨[secOddPad], 1, 0, 0, true, secOddPad⟩

/-- A sector holding a particle block (with a zero-id padding record and a
real record) followed by an event trailer; `K = 2`, `kPIB = 2`. -/
def secPart : DiskBlock := ⟨[3], [.particleBlock [⟨0⟩, ⟨5⟩], .eventTrailer], [3]⟩

/-- Stream over `[secPart]` positioned at the particle block. -/
def rawPart : RawStreamState := ⟨[secPart], 1, 0, 0, true, secPart⟩

/-- Stream over `[secPart]` positioned at the event trailer. -/
def rawTrail : RawStreamState := ⟨[secPart], 1, 0, 1, true, secPart⟩

/-- Particle iterator about to read the particle block of `rawPart`. -/
def itPart : RawParticleIteratorState :=
  { raw := rawPart, start := 0, block := default, current_particle := 2, valid := true }

/-- Particle iterator about to read the event trailer of `rawTrail`. -/
def itTrail : RawParticleIteratorState :=
  { raw := rawTrail, start := 0, block := default, current_particle := 2, valid := true }

/-- The particle iterator after `itTrail` met the event trailer. -/
def itDone : RawParticleIteratorState :=
  { raw := ⟨[secPart], 1, 1, 0, false, secPart⟩, start := 0, block := .eventTrailer,
    current_particle := 2, valid := false }

/-- An event header with three observation levels at heights 100, 200, 300. -/
def hdrThree : EventHeaderData :=
  { fEventNumber := 1, fObservationLevels := 3, fObservationHeight := [100, 200, 300],
    fZFirst := 1000, fTheta := 0, fFlagCurved := false, fParticleId := 14,
    fStartingHeight := 0 }

/-- An event header with a single observation level. -/
def hdrOne : EventHeaderData :=
  { fEventNumber := 7, fObservationLevels := 1, fObservationHeight := [110000],
    fZFirst := 1000, fTheta := 0, fFlagCurved := false, fParticleId := 14,
    fStartingHeight := 0 }

/-- `hdrOne` with event number 8. -/
def hdrEight : EventHeaderData := { hdrOne with fEventNumber := 8 }

/-- A two-event file (`K = 1`, `Padding = 1`): header, trailer, header,
trailer, one block per sector. -/
def fileTwoEvents : List DiskBlock :=
  [⟨[5], [.eventHeader hdrOne], [5]⟩, ⟨[5], [.eventTrailer], [5]⟩,
   ⟨[5], [.eventHeader hdrEight], [5]⟩, ⟨[5], [.eventTrailer], [5]⟩]

/-- Stream state over `fileTwoEvents` after construction. -/
def rawTwoEvents : RawStreamState :=
  ⟨fileTwoEvents, 1, 0, 0, true, ⟨[5], [.eventHeader hdrOne], [5]⟩⟩

/-- A side-file profile with recognisable contents. -/
def profileSide : CorsikaLongProfile :=
  { fdEdX := [9], fChargeProfile := [9], fGammaProfile := [9],
    fElectronProfile := [9], fMuonProfile := [9], fDepth_dE := [42],
    fDepth := [42], fGaisserHillas := [1], fCalorimetricEnergy := 3 }

/-- Facade state over `fileTwoEvents`: two indexed events, a single recorded
longitudinal chain (for slot 0 only), a present side file with a profile for
each slot, cursor on slot 1. -/
def stTwoEvents : CorsikaShowerFileState :=
  { isOpen := true, raw := rawTwoEvents,
    fIndex := { eventHeaders := [0, 2], eventTrailers := [1, 3],
                longBlocks := [0], IDToPosition := [(7, 0), (8, 1)] },
    fCurrentPosition := 1, fObservationLevel := 1, fLongFile := true,
    sideProfiles := [default, profileSide], fCurrentShower := default }

/-- Longitudinal entries with depths 1, 0, 5, 2, 3, 4. -/
def entD1 : LongEntry :=
  { fDepth := 1, fGamma := 10, fEplus := 1, fEminus := 2, fMuPlus := 3,
    fMuMinus := 4, fCharged := 20 }

def entD0 : LongEntry := { entD1 with fDepth := 0 }

def entD5 : LongEntry := { entD1 with fDepth := 5 }

def entD2 : LongEntry := { entD1 with fDepth := 2 }

def entD3 : LongEntry := { entD1 with fDepth := 3 }

def entD4 : LongEntry := { entD1 with fDepth := 4 }

/-- First longitudinal block of a chain: header word 102, i.e. declared
`n_steps = 1` and `n_blocks = 2`; its second entry has zero depth. -/
def longFirst : Block := .longitudinal 102 [entD1, entD0, entD5]

/-- Second longitudinal block of the chain, three non-zero depths. -/
def longSecond : Block := .longitudinal 0 [entD2, entD3, entD4]

/-- One-sector file holding the two-block longitudinal chain (`K = 2`,
`Padding = 1`, `kLEPB = 3`). -/
def sectorLong : DiskBlock := ⟨[10], [longFirst, longSecond], [10]⟩

/-- Stream over `[sectorLong]` after construction. -/
def rawLong : RawStreamState := ⟨[sectorLong], 1, 0, 0, true, sectorLong⟩

/-- Facade state whose slot 0 has the longitudinal chain at block 0. -/
def stLong : CorsikaShowerFileState :=
  { isOpen := true, raw := rawLong,
    fIndex := { eventHeaders := [5], eventTrailers := [6], longBlocks := [0],
                IDToPosition := [(7, 0)] },
    fCurrentPosition := 0, fObservationLevel := 1, fLongFile := false,
    sideProfiles := [], fCurrentShower := default }


/-- A sector whose padding words differ: start 7, end 8. -/
def secBadPad : DiskBlock := ⟨[7], [.runHeader], [8]⟩

/-- A stream state about to read `secBadPad` from disk. -/
def rawAtBad : RawStreamState := ⟨[secBadPad], 0, 0, 0, false, default⟩


/-- `stTwoEvents` with no recorded longitudinal blocks (side file present). -/
def stSideOnly : CorsikaShowerFileState :=
  { stTwoEvents with
    fIndex := { eventHeaders := [0, 2], eventTrailers := [1, 3],
                longBlocks := [], IDToPosition := [(7, 0), (8, 1)] } }

/-- `stSideOnly` with the side file absent as well. -/
def stNoProfile : CorsikaShowerFileState := { stSideOnly with fLongFile := false }

/-- All seven accumulator columns of `ReadLongBlocks` have the same length. -/
def ColsBalanced (c : ProfileCols) : Prop :=
  c.auxDeltaEn.length = c.auxDepth.length ∧
  c.auxCharge.length = c.auxDepth.length ∧
  c.auxGammas.length = c.auxDepth.length ∧
  c.auxElectrons.length = c.auxDepth.length ∧
  c.auxMuons.length = c.auxDepth.length ∧
  c.auxDepth_dE.length = c.auxDepth.length

/-- All seven profile columns of a shower have the same length. -/
def ShowerProfileBalanced (sh : CorsikaShower) : Prop :=
  sh.fdEdX.length = sh.fDepth.length ∧
  sh.fChargeProfile.length = sh.fDepth.length ∧
  sh.fGammaProfile.length = sh.fDepth.length ∧
  sh.fElectronProfile.length = sh.fDepth.length ∧
  sh.fMuonProfile.length = sh.fDepth.length ∧
  sh.fDepth_dE.length = sh.fDepth.length

/-! # Theorems -/

theorem streamInv_init {K Padding : Nat} {file : List DiskBlock} {s : RawStreamState}
    (hK : 0 < K) (h : initRawStream Padding file = .ok s) : StreamInv K Padding s := by
  cases file with
  | nil =>
    simp only [initRawStream, Except.ok.injEq] at h
    subst h
    exact ⟨hK, by simp, by simp⟩
  | cons blk rest =>
    simp only [initRawStream] at h
    by_cases hp : blk.check_padding Padding = true
    · simp only [hp, if_true, Except.ok.injEq] at h
      subst h
      exact ⟨hK, fun _ => ⟨rfl, by simp, by simp, hp⟩, by simp⟩
    · simp [hp] at h

theorem streamInv_seek {K Padding : Nat} (p : Nat) (hK : 0 < K) (s : RawStreamState) :
    StreamInv K Padding (SeekTo K p s) := by
  refine ⟨?_, by simp [SeekTo], by simp [SeekTo]⟩
  simpa [SeekTo] using Nat.mod_lt p hK


theorem streamInv_next {K Padding : Nat} {s s' : RawStreamState} {r : Option Block}
    (hK : 0 < K) (hs : StreamInv K Padding s)
    (h : GetNextBlockImpl K Padding s = .ok (r, s')) : StreamInv K Padding s' := by
  obtain ⟨h1, h2, h3⟩ := hs
  simp only [GetNextBlockImpl, ReadDiskBlock] at h
  split at h
  next hv =>
    obtain ⟨hf, hlen, hbuf, hpad⟩ := h2 hv
    split at h
    next hwrap =>
      simp only [Except.ok.injEq, Prod.mk.injEq] at h
      rw [← h.2]
      exact ⟨hK, by simp, fun _ => by simpa using hf⟩
    next hwrap =>
      simp only [Except.ok.injEq, Prod.mk.injEq] at h
      rw [← h.2]
      refine ⟨Nat.lt_of_not_le hwrap, fun _ => ⟨hf, hlen, hbuf, hpad⟩, fun hc => ?_⟩
      simp only at hc
      simp [hc] at hv
  next hv =>
    have hv' : s.buffer_valid = false := eq_false_of_ne_true hv
    have hfpos : s.fpos = s.current_block := h3 hv'
    split at h
    next heq =>
      exact absurd h (by simp)
    next s1 heq =>
      rw [show s1 = s by
            by_cases hlt : s.fpos < s.file.length
            · rw [dif_pos hlt] at heq
              split at heq
              · exact absurd heq (by simp)
              · exact absurd heq (by simp)
            · rw [dif_neg hlt] at heq
              simpa using heq.symm] at h
      simp only [Except.ok.injEq, Prod.mk.injEq] at h
      rw [← h.2]
      exact ⟨h1, fun hc => absurd hc hv, h3⟩
    next s1 heq =>
      by_cases hlt : s.fpos < s.file.length
      · rw [dif_pos hlt] at heq
        by_cases hp : (s.file.get ⟨s.fpos, hlt⟩).check_padding Padding = true
        · rw [if_pos hp] at heq
          simp only [Except.ok.injEq, Prod.mk.injEq] at heq
          rw [← heq.2] at h
          simp only [Except.ok.injEq] at h
          split at h
          next hwrap =>
            simp only [Prod.mk.injEq] at h
            rw [← h.2]
            exact ⟨hK, by simp, fun _ => by simp [hfpos]⟩
          next hwrap =>
            simp only [Prod.mk.injEq] at h
            rw [← h.2]
            refine ⟨Nat.lt_of_not_le hwrap, fun _ => ?_, fun hc => by simp at hc⟩
            refine ⟨by simp [hfpos], by simpa [hfpos] using hlt, ?_, by simpa using hp⟩
            show s.file.get ⟨s.fpos, hlt⟩ = s.file.getD s.current_block default
            rw [← hfpos]
            simp [List.getD, List.getElem?_eq_getElem hlt]
        · rw [if_neg hp] at heq
          exact absurd heq (by simp)
      · rw [dif_neg hlt] at heq
        exact absurd heq (by simp)

theorem reachable_inv {K Padding : Nat} {s : RawStreamState} (hK : 0 < K)
    (h : Reachable K Padding s) : StreamInv K Padding s := by
  induction h with
  | init h => exact streamInv_init hK h
  | next _ h ih => exact streamInv_next hK ih h
  | seek p _ _ => exact streamInv_seek p hK _
  | valid _ h _ =>
    simp only [RawStream.IsValid] at h
    split at h
    · exact absurd h (by simp)
    · simp only [Except.ok.injEq, Prod.mk.injEq] at h
      rw [← h.2]
      exact streamInv_seek _ hK _


theorem seek_back_same_block {K Padding : Nat} {s : RawStreamState} (hK : 0 < K)
    (hinv : StreamInv K Padding s) (B : DiskBlock) :
    (GetNextBlockImpl K Padding
        (SeekTo K (GetNextPosition K s) { s with buffer := B })).map Prod.fst
      = (GetNextBlockImpl K Padding s).map Prod.fst := by
  obtain ⟨h1, h2, h3⟩ := hinv
  have hdiv : (s.current_disk_block + K * s.current_block) / K = s.current_block := by
    rw [Nat.add_mul_div_left _ _ hK, Nat.div_eq_of_lt h1, Nat.zero_add]
  have hmod : (s.current_disk_block + K * s.current_block) % K = s.current_disk_block := by
    rw [Nat.add_mul_mod_self_left, Nat.mod_eq_of_lt h1]
  have hseek : SeekTo K (GetNextPosition K s) { s with buffer := B } =
      ⟨s.file, s.current_block, s.current_block, s.current_disk_block, false, B⟩ := by
    simp [SeekTo, GetNextPosition, hdiv, hmod]
  rw [hseek]
  by_cases hv : s.buffer_valid = true
  · obtain ⟨hf, hlen, hbuf, hpad⟩ := h2 hv
    have hget : s.file.get ⟨s.current_block, hlen⟩ = s.buffer := by
      rw [hbuf]
      simp [List.getD, List.getElem?_eq_getElem hlen]
    have hstate : (⟨s.file, s.current_block + 1, s.current_block,
        s.current_disk_block, true, s.buffer⟩ : RawStreamState) = s := by
      cases s
      simp_all
    simp only [GetNextBlockImpl, ReadDiskBlock]
    rw [if_neg (by simp)]
    rw [dif_pos (by simpa using hlen)]
    simp only [hget, hpad, if_pos, hv, if_true, hf]
  · have hbv : s.buffer_valid = false := eq_false_of_ne_true hv
    have hfpos : s.fpos = s.current_block := h3 hbv
    simp only [GetNextBlockImpl, ReadDiskBlock, hbv, hfpos, Bool.false_eq_true, if_false]
    by_cases hlt : s.current_block < s.file.length
    · by_cases hp : (s.file.get ⟨s.current_block, hlt⟩).check_padding Padding = true
      · simp only [dif_pos hlt, if_pos hp]
      · simp only [dif_pos hlt, if_neg hp]
    · simp only [dif_neg hlt]
      simp [Except.map]

theorem getNextBlock_file_eq {K Padding : Nat} {t t' : RawStreamState}
    {r : Option Block} (h : GetNextBlockImpl K Padding t = .ok (r, t')) :
    t'.file = t.file := by
  simp only [GetNextBlockImpl, ReadDiskBlock] at h
  split at h
  next hv =>
    split at h <;>
      · simp only [Except.ok.injEq, Prod.mk.injEq] at h
        rw [← h.2]
  next hv =>
    split at h
    next heq => exact absurd h (by simp)
    next s1 heq =>
      simp only [Except.ok.injEq, Prod.mk.injEq] at h
      rw [← h.2]
      by_cases hlt : t.fpos < t.file.length
      · rw [dif_pos hlt] at heq
        split at heq
        · exact absurd heq (by simp)
        · exact absurd heq (by simp)
      · rw [dif_neg hlt] at heq
        simp only [Except.ok.injEq, Prod.mk.injEq] at heq
        rw [← heq.2]
    next s1 heq =>
      by_cases hlt : t.fpos < t.file.length
      · rw [dif_pos hlt] at heq
        split at heq
        next hp =>
          simp only [Except.ok.injEq, Prod.mk.injEq] at heq
          rw [← heq.2] at h
          split at h <;>
            · simp only [Except.ok.injEq, Prod.mk.injEq] at h
              rw [← h.2]
        next hp => exact absurd heq (by simp)
      · rw [dif_neg hlt] at heq
        exact absurd heq (by simp)

/-- C7: for every reachable state of the framed block stream over a seekable
source, seeking to the current tell position is a no-op: `SeekTo
(GetNextPosition())` followed by `GetNextBlock` yields the same block (or
end-of-file, or error) as calling `GetNextBlock` directly. -/
theorem seekTo_tell_noop {K Padding : Nat} {s : RawStreamState} (hK : 0 < K)
    (hreach : Reachable K Padding s) :
    (GetNextBlockImpl K Padding (SeekTo K (GetNextPosition K s) s)).map Prod.fst
      = (GetNextBlockImpl K Padding s).map Prod.fst := by
  have h := seek_back_same_block hK (reachable_inv hK hreach) s.buffer
  have heta : ({ s with buffer := s.buffer } : RawStreamState) = s := by
    cases s
    rfl
  rwa [heta] at h

/-- C7 witness: the no-op property at a concrete constructed stream. -/
theorem seekTo_tell_noop_witness :
    (GetNextBlockImpl 1 1 (SeekTo 1 (GetNextPosition 1 rawRun) rawRun)).map Prod.fst
      = (GetNextBlockImpl 1 1 rawRun).map Prod.fst :=
  seekTo_tell_noop (by decide) (@Reachable.init 1 1 [secRun] rawRun rfl)

/-- C10: `IsValid` leaves the observable stream position unchanged — the
first `GetNextBlock` after `IsValid` returns the same block as a direct
`GetNextBlock` from the original reachable state. -/
theorem isValid_preserves_next_block {K Padding : Nat} {kb : Int}
    {s s' : RawStreamState} {b : Bool} (hK : 0 < K)
    (hreach : Reachable K Padding s)
    (h : RawStream.IsValid K Padding kb s = .ok (b, s')) :
    (GetNextBlockImpl K Padding s').map Prod.fst
      = (GetNextBlockImpl K Padding s).map Prod.fst := by
  have hinv := reachable_inv hK hreach
  simp only [RawStream.IsValid] at h
  split at h
  next heq => exact absurd h (by simp)
  next r s1 heq =>
    simp only [Except.ok.injEq, Prod.mk.injEq] at h
    have hfile : s1.file = s.file := by
      have hf := getNextBlock_file_eq heq
      simpa [SeekTo] using hf
    have hs' : s' = SeekTo K (GetNextPosition K s) { s with buffer := s1.buffer } := by
      rw [← h.2]
      simp [SeekTo, hfile]
    rw [hs']
    exact seek_back_same_block hK hinv s1.buffer

/-- C10 witness: at a concrete constructed stream, `IsValid` returns and the
next block is unchanged. -/
theorem isValid_preserves_next_block_witness :
    (GetNextBlockImpl 1 1 (⟨[secRun], 0, 0, 0, false, secRun⟩ : RawStreamState)).map Prod.fst
      = (GetNextBlockImpl 1 1 rawRun).map Prod.fst :=
  @isValid_preserves_next_block 1 1 1248 rawRun ⟨[secRun], 0, 0, 0, false, secRun⟩ true
    (by decide) (@Reachable.init 1 1 [secRun] rawRun rfl) rfl

/-- C2 (amended): the check run before a sector's sub-blocks are handed out
— at construction and in `ReadDiskBlock` — guarantees only the word-by-word
equality `padding_start == padding_end`, failing `FramingError` before any
sub-block of the offending sector is returned; every block handed out by
`GetNextBlock` comes from a sector that passed this check.  (The value
`K × bytes_per_sub_block` is not verified by this check.) -/
theorem sector_padding_check (K Padding : Nat) :
    (∀ (file : List DiskBlock) (blk : DiskBlock) (rest : List DiskBlock),
        file = blk :: rest → blk.check_padding Padding = false →
        initRawStream Padding file = .error .FramingError) ∧
    (∀ (s : RawStreamState) (hlt : s.fpos < s.file.length),
        (s.file.get ⟨s.fpos, hlt⟩).check_padding Padding = false →
        ReadDiskBlock Padding s = .error .FramingError) ∧
    (∀ (s s' : RawStreamState) (b : Block), 0 < K → Reachable K Padding s →
        GetNextBlockImpl K Padding s = .ok (some b, s') →
        ∃ i j, i < s.file.length ∧ j < K ∧
          (s.file.getD i default).check_padding Padding = true ∧
          b = (s.file.getD i default).fBlock.getD j default) := by
  refine ⟨?_, ?_, ?_⟩
  · intro file blk rest hfile hbad
    subst hfile
    simp [initRawStream, hbad]
  · intro s hlt hbad
    simp only [ReadDiskBlock, dif_pos hlt, hbad]
    simp
  · intro s s' b hK hreach h
    obtain ⟨h1, h2, h3⟩ := reachable_inv hK hreach
    simp only [GetNextBlockImpl, ReadDiskBlock] at h
    split at h
    next hv =>
      obtain ⟨hf, hlen, hbuf, hpad⟩ := h2 hv
      refine ⟨s.current_block, s.current_disk_block, hlen, h1, by rw [← hbuf]; exact hpad, ?_⟩
      split at h <;>
        · simp only [Except.ok.injEq, Prod.mk.injEq, Option.some.injEq] at h
          rw [← h.1, hbuf]
    next hv =>
      have hfpos : s.fpos = s.current_block := h3 (eq_false_of_ne_true hv)
      split at h
      next heq => exact absurd h (by simp)
      next s1 heq => exact absurd h (by simp)
      next s1 heq =>
        by_cases hlt : s.fpos < s.file.length
        · rw [dif_pos hlt] at heq
          by_cases hp : (s.file.get ⟨s.fpos, hlt⟩).check_padding Padding = true
          · rw [if_pos hp] at heq
            simp only [Except.ok.injEq, Prod.mk.injEq] at heq
            have hgetD : s.file.getD s.fpos default = s.file.get ⟨s.fpos, hlt⟩ := by
              simp [List.getD, List.getElem?_eq_getElem hlt]
            refine ⟨s.fpos, s.current_disk_block, hlt, h1, by rw [hgetD]; exact hp, ?_⟩
            rw [← heq.2] at h
            split at h <;>
              · simp only [Except.ok.injEq, Prod.mk.injEq, Option.some.injEq] at h
                rw [← h.1, hgetD]
          · rw [if_neg hp] at heq
            exact absurd heq (by simp)
        · rw [dif_neg hlt] at heq
          exact absurd heq (by simp)

/-- C2 counterexample (to the claim as stated): a sector with equal padding
words `7` on both sides passes the padding check, construction succeeds, and
`GetNextBlock` hands out its first sub-block — yet `7` differs from
`K × bytes_per_sub_block = 21 × 1092` (NotThinned, 32-bit): the padding
check guarantees nothing about `K × bytes_per_sub_block`. -/
theorem padding_value_not_checked :
    secOddPad.check_padding 1 = true ∧
    initRawStream 1 [secOddPad] = .ok rawOddPad ∧
    GetNextBlockImpl 21 1 rawOddPad
      = .ok (some Block.runHeader, ⟨[secOddPad], 1, 0, 1, true, secOddPad⟩) ∧
    (7 : Int) ≠ 21 * NotThinned.kBytesPerBlock :=
  ⟨rfl, rfl, rfl, by decide⟩

/-- C2 witness: the three parts of `sector_padding_check` at concrete
inputs: mismatched padding fails construction and `ReadDiskBlock` with
`FramingError`; a handed-out block comes from a checked sector. -/
theorem sector_padding_check_witness :
    initRawStream 1 [secBadPad] = .error .FramingError ∧
    ReadDiskBlock 1 rawAtBad = .error .FramingError ∧
    (∃ i j, i < rawRun.file.length ∧ j < 1 ∧
      (rawRun.file.getD i default).check_padding 1 = true ∧
      Block.runHeader = (rawRun.file.getD i default).fBlock.getD j default) :=
  ⟨(sector_padding_check 1 1).1 [secBadPad] secBadPad [] rfl rfl,
   (sector_padding_check 1 1).2.1 rawAtBad (by decide) rfl,
   (sector_padding_check 1 1).2.2 rawRun ⟨[secRun], 1, 1, 0, false, secRun⟩
     Block.runHeader (by decide) (@Reachable.init 1 1 [secRun] rawRun rfl) rfl⟩

/-- C9: once the particle iterator has terminated — `GetOneParticle`
returned `none` because a control or longitudinal block was met — every
subsequent call fails `IteratorExhausted` instead of returning a particle or
the end marker. -/
theorem next_after_termination_exhausted {K Padding kPIB : Nat}
    {it it' : RawParticleIteratorState}
    (h : GetOneParticle K Padding kPIB it = .ok (none, it')) :
    GetOneParticle K Padding kPIB it' = .error .IteratorExhausted := by
  simp only [GetOneParticle] at h
  split at h
  next hcp =>
    split at h
    next => exact absurd h (by simp)
    next hvalid =>
      split at h
      next heq => exact absurd h (by simp)
      next heq => exact absurd h (by simp)
      next b raw' heq =>
        split at h
        next hctrl =>
          simp only [Except.ok.injEq, Prod.mk.injEq] at h
          rw [← h.2]
          simp [GetOneParticle, hcp]
        next hctrl => exact absurd h (by simp)
  next hcp => exact absurd h (by simp)

/-- C9 witness: after meeting the event trailer, the next call fails
`IteratorExhausted`. -/
theorem next_after_termination_exhausted_witness :
    GetOneParticle 2 1 2 itDone = .error .IteratorExhausted :=
  @next_after_termination_exhausted 2 1 2 itTrail itDone rfl

/-- C3: the per-event particle sequence handed to consumers never contains a
zero-id record — `next()` skips them — and the first control or longitudinal
block met by the underlying `GetOneParticle` terminates the iteration with
the end marker. -/
theorem particle_iterator_skips_zero_and_terminates (K Padding kPIB : Nat) :
    (∀ (fuel : Nat) (it it' : RawParticleIteratorState) (p : ParticleData),
        CorsikaShowerFileParticleIterator.next K Padding kPIB fuel it = .ok (some p, it') →
        p.fDescription ≠ 0) ∧
    (∀ (fuel : Nat) (it : RawParticleIteratorState) (b : Block) (raw' : RawStreamState),
        it.current_particle = kPIB → it.valid = true →
        GetNextBlockImpl K Padding it.raw = .ok (some b, raw') →
        (b.IsControl || b.IsLongitudinal) = true →
        CorsikaShowerFileParticleIterator.next K Padding kPIB (fuel + 1) it =
          .ok (none, { it with raw := raw', block := b, valid := false })) := by
  constructor
  · intro fuel
    induction fuel with
    | zero =>
      intro it it' p h
      exact absurd h (by simp [CorsikaShowerFileParticleIterator.next])
    | succ n ih =>
      intro it it' p h
      simp only [CorsikaShowerFileParticleIterator.next] at h
      split at h
      next heq => exact absurd h (by simp)
      next it1 heq => exact absurd h (by simp)
      next q it1 heq =>
        split at h
        next hzero => exact ih it1 it' p h
        next hzero =>
          simp only [Except.ok.injEq, Prod.mk.injEq, Option.some.injEq] at h
          rw [← h.1]
          exact hzero
  · intro fuel it b raw' hcp hvalid hstream hctrl
    simp [CorsikaShowerFileParticleIterator.next, GetOneParticle, hcp, hvalid,
      hstream, hctrl]

/-- C3 witness: over the concrete particle block `[id 0, id 5]`, `next()`
returns the id-5 record (its id is nonzero), and at the event trailer the
iteration ends. -/
theorem particle_iterator_skips_zero_witness :
    ((5 : Int) ≠ 0) ∧
    CorsikaShowerFileParticleIterator.next 2 1 2 3 itTrail = .ok (none, itDone) :=
  ⟨(particle_iterator_skips_zero_and_terminates 2 1 2).1 3 itPart
      { raw := ⟨[secPart], 1, 0, 1, true, secPart⟩, start := 0,
        block := .particleBlock [⟨0⟩, ⟨5⟩], current_particle := 2, valid := true }
      ⟨5⟩ rfl,
   (particle_iterator_skips_zero_and_terminates 2 1 2).2 2 itTrail .eventTrailer
      ⟨[secPart], 1, 1, 0, false, secPart⟩ rfl rfl rfl rfl⟩

/-- C1: `open` reads the first 8 bytes as the little-endian 64-bit `len64`
and its low 32-bit half `len32`, and resolves the file shape in the exact
order `len64 = Thinned → (Thinned, 64)`, `len64 = NotThinned →
(NotThinned, 64)`, `len32 = Thinned → (Thinned, 32)`, `len32 = NotThinned →
(NotThinned, 32)`, failing `UnknownShape` otherwise. -/
theorem create_resolution_order (b0 b1 b2 b3 b4 b5 b6 b7 : Nat) :
    VRawStream.Create [b0, b1, b2, b3, b4, b5, b6, b7] =
      shapeFromLens (toSigned 64 (leNat [b0, b1, b2, b3, b4, b5, b6, b7]))
        (toSigned 32 (leNat [b0, b1, b2, b3, b4, b5, b6, b7] % 2 ^ 32)) := by
  have h4 : leNat [b0, b1, b2, b3] = leNat [b0, b1, b2, b3, b4, b5, b6, b7] % 2 ^ 32 := by
    simp only [leNat]
    have hpow : (2 : Nat) ^ 32 = 4294967296 := by norm_num
    rw [hpow]
    omega
  have ht8 : ([b0, b1, b2, b3, b4, b5, b6, b7] : List Nat).take 8
      = [b0, b1, b2, b3, b4, b5, b6, b7] := rfl
  have ht4 : ([b0, b1, b2, b3, b4, b5, b6, b7] : List Nat).take 4 = [b0, b1, b2, b3] := rfl
  simp only [VRawStream.Create, shapeFromLens, ht8, ht4, h4]

/-- C4 counterexample: with header `hdrThree` (three observation levels at
heights 100, 200, 300) and requested level 1, the clamp leaves the level at
1, yet the observation height used by the time-shift computation is
`fObservationHeight[int(fObservationLevels) - 1] = 300`, not
`fObservationHeight[obs_level - 1] = 100` as the claim states. -/
theorem observation_height_ignores_requested_level :
    clampObservationLevel 1 hdrThree = 1 ∧
    heightObsLevel hdrThree = 300 ∧
    hdrThree.fObservationHeight.getD (clampObservationLevel 1 hdrThree - 1) 0 = 100 ∧
    heightObsLevel hdrThree ≠
      hdrThree.fObservationHeight.getD (clampObservationLevel 1 hdrThree - 1) 0 :=
  ⟨rfl, rfl, rfl, by decide⟩

/-- C4 (amended): the requested observation level is clamped into
`[1, header.fObservationLevels]`, falling back to 1 when above the maximum,
but the observation height used in the time-shift computation is
`header.fObservationHeight[header.fObservationLevels - 1]` — the last
declared level — independent of the requested level. -/
theorem observation_level_clamp_and_height (req : Nat) (header : EventHeaderData)
    (h1 : 1 ≤ req) (h2 : 1 ≤ header.fObservationLevels) :
    1 ≤ clampObservationLevel req header ∧
    clampObservationLevel req header ≤ header.fObservationLevels ∧
    (header.fObservationLevels < req → clampObservationLevel req header = 1) ∧
    (req ≤ header.fObservationLevels → clampObservationLevel req header = req) ∧
    heightObsLevel header
      = header.fObservationHeight.getD (header.fObservationLevels - 1) 0 := by
  unfold clampObservationLevel heightObsLevel
  refine ⟨?_, ?_, ?_, ?_, rfl⟩
  · split <;> omega
  · split <;> omega
  · intro h
    rw [if_pos h]
  · intro h
    rw [if_neg (by omega)]

/-- C4 witness: requested level 5 against three declared levels falls back
to 1; the height used is that of the last declared level. -/
theorem observation_level_clamp_and_height_witness :
    1 ≤ clampObservationLevel 5 hdrThree ∧
    clampObservationLevel 5 hdrThree ≤ hdrThree.fObservationLevels ∧
    (hdrThree.fObservationLevels < 5 → clampObservationLevel 5 hdrThree = 1) ∧
    (5 ≤ hdrThree.fObservationLevels → clampObservationLevel 5 hdrThree = 5) ∧
    heightObsLevel hdrThree
      = hdrThree.fObservationHeight.getD (hdrThree.fObservationLevels - 1) 0 :=
  observation_level_clamp_and_height 5 hdrThree (by decide) (by decide)

/-- C5 counterexample: in `stTwoEvents` the index records a longitudinal
block only for slot 0, the cursor is on slot 1, and the side file holds a
profile for slot 1 with depth column `[42]`; reading the event succeeds but
takes the in-stream path — `longBlocks` is non-empty globally — so the
resulting profile is empty rather than the slot's side-file profile. -/
theorem profile_source_ignores_slot :
    stTwoEvents.fIndex.longBlocks.length ≤ stTwoEvents.fCurrentPosition ∧
    stTwoEvents.fLongFile = true ∧
    (stTwoEvents.sideProfiles.getD stTwoEvents.fCurrentPosition default).fDepth = [42] ∧
    (CorsikaShowerFile.Read 1 1 3 stTwoEvents).map
        (fun p => (p.1, p.2.fCurrentShower.fDepth)) = .ok (.eSuccess, []) :=
  ⟨by decide, rfl, rfl, rfl⟩

/-- C5 (amended): per event read, the in-stream assembler is used if and
only if the index recorded at least one longitudinal block anywhere in the
file; otherwise the side file, when present, supplies the
`fCurrentPosition`-th profile; otherwise the profile step changes nothing. -/
theorem profile_source_selection (K Padding kLEPB : Nat) (s : CorsikaShowerFileState) :
    (0 < s.fIndex.longBlocks.length →
        readProfileStep K Padding kLEPB s = ReadLongBlocks K Padding kLEPB s) ∧
    (s.fIndex.longBlocks.length = 0 → s.fLongFile = true →
        readProfileStep K Padding kLEPB s = .ok (ReadLongFile s)) ∧
    (s.fIndex.longBlocks.length = 0 → s.fLongFile = false →
        readProfileStep K Padding kLEPB s = .ok (.eSuccess, s)) ∧
    (s.fCurrentPosition ≤ s.sideProfiles.length →
        (ReadLongFile s).2.fCurrentShower.fDepth
          = (s.sideProfiles.getD s.fCurrentPosition default).fDepth ∧
        (ReadLongFile s).2.fCurrentShower.fdEdX
          = (s.sideProfiles.getD s.fCurrentPosition default).fdEdX ∧
        (ReadLongFile s).2.fCurrentShower.fCalorimetricEnergy
          = (s.sideProfiles.getD s.fCurrentPosition default).fCalorimetricEnergy) := by
  refine ⟨?_, ?_, ?_, ?_⟩
  · intro h
    rw [readProfileStep, if_pos h]
  · intro h hl
    rw [readProfileStep, if_neg (by omega), if_pos hl]
  · intro h hl
    rw [readProfileStep, if_neg (by omega), if_neg (by simp [hl])]
  · intro h
    rw [ReadLongFile, if_pos h]
    exact ⟨rfl, rfl, rfl⟩

/-- C5 witness: the three selection branches and the in-range side-file copy
at concrete states. -/
theorem profile_source_selection_witness :
    readProfileStep 1 1 3 stTwoEvents = ReadLongBlocks 1 1 3 stTwoEvents ∧
    readProfileStep 1 1 3 stSideOnly = .ok (ReadLongFile stSideOnly) ∧
    readProfileStep 1 1 3 stNoProfile = .ok (.eSuccess, stNoProfile) ∧
    (ReadLongFile stSideOnly).2.fCurrentShower.fDepth
      = (stSideOnly.sideProfiles.getD stSideOnly.fCurrentPosition default).fDepth :=
  ⟨(profile_source_selection 1 1 3 stTwoEvents).1 (by decide),
   (profile_source_selection 1 1 3 stSideOnly).2.1 rfl rfl,
   (profile_source_selection 1 1 3 stNoProfile).2.2.1 rfl rfl,
   ((profile_source_selection 1 1 3 stSideOnly).2.2.2 (by decide)).1⟩

/-- C8: for an open reader and an event id absent from the id-to-slot map,
`FindEvent` returns the non-fatal `eFail` — the status the spec names
`NotFound` — and leaves the whole reader state, the event cursor included,
unchanged. -/
theorem findEvent_unknown_id (K Padding kLEPB : Nat) (eventId : Nat)
    (s : CorsikaShowerFileState) (hopen : s.isOpen = true)
    (hmiss : IDToPosition.lookup s.fIndex.IDToPosition eventId = none) :
    CorsikaShowerFile.FindEvent K Padding kLEPB eventId s = .ok (.eFail, s) := by
  rw [CorsikaShowerFile.FindEvent, if_neg (by simp [hopen]), hmiss]

/-- C8 witness: id 99 is not in `stTwoEvents`' map; `FindEvent` fails
non-fatally with the state unchanged. -/
theorem findEvent_unknown_id_witness :
    CorsikaShowerFile.FindEvent 1 1 3 99 stTwoEvents = .ok (.eFail, stTwoEvents) :=
  findEvent_unknown_id 1 1 3 99 stTwoEvents rfl rfl

theorem pushEntry_balanced {e : LongEntry} {cols : ProfileCols}
    (h : ColsBalanced cols) : ColsBalanced (pushEntry e cols) := by
  obtain ⟨h1, h2, h3, h4, h5, h6⟩ := h
  simp only [ColsBalanced, pushEntry, List.length_append, List.length_cons,
    List.length_nil]
  omega

theorem longLoop_balanced (entries : List LongEntry) (r : Nat) :
    ∀ (j i : Nat) (cols : ProfileCols), ColsBalanced cols →
      ColsBalanced (longLoop entries r j i cols).1 := by
  induction r with
  | zero =>
    intro j i cols h
    simpa [longLoop] using h
  | succ n ih =>
    intro j i cols h
    simp only [longLoop]
    split
    · simpa using h
    · exact ih (j + 1) (i + 1) _ (pushEntry_balanced h)

theorem longOuter_balanced (K Padding kLEPB : Nat) (count : Nat) :
    ∀ (raw : RawStreamState) (cols : ProfileCols) (i : Nat)
      (raw' : RawStreamState) (cols' : ProfileCols) (i' : Nat),
      ColsBalanced cols →
      longOuter K Padding kLEPB count raw cols i = .ok (.done raw' cols' i') →
      ColsBalanced cols' := by
  induction count with
  | zero =>
    intro raw cols i raw' cols' i' h heq
    simp only [longOuter, Except.ok.injEq, LongLoopOut.done.injEq] at heq
    rw [← heq.2.1]
    exact h
  | succ n ih =>
    intro raw cols i raw' cols' i' h heq
    simp only [longOuter] at heq
    split at heq
    next => exact absurd heq (by simp)
    next => exact absurd heq (by simp)
    next b raw1 hstream =>
      exact ih raw1 _ _ raw' cols' i' (longLoop_balanced b.AsLongEntries kLEPB 0 _ _ h) heq

/-- C6 (amended): the in-stream assembler decodes `n_blocks = h % 100` from
the first longitudinal block's header word and collects entries across that
many consecutive blocks; an entry with `depth == 0` at overall index `> 0`
stops collection from the current block only (the remaining blocks of the
chain are still read and may contribute); the emitted per-column vectors all
have the same length — the number of entries collected, not the declared
step count `h / 100`, which is unused. -/
theorem long_assembler_columns (K Padding kLEPB : Nat) :
    (∀ (s s' : CorsikaShowerFileState) (st : Status),
        ReadLongBlocks K Padding kLEPB s = .ok (st, s') → st = .eSuccess →
        ShowerProfileBalanced s'.fCurrentShower) ∧
    (∀ (entries : List LongEntry) (r j i : Nat) (cols : ProfileCols),
        i ≠ 0 → (entries.getD j default).fDepth = 0 →
        longLoop entries (r + 1) j i cols = (cols, i)) := by
  constructor
  · intro s s' st h hst
    subst hst
    simp only [ReadLongBlocks] at h
    split at h
    next => exact absurd h (by simp)
    next => exact absurd h (by simp)
    next b raw2 hstream =>
      split at h
      next => exact absurd h (by simp)
      next hlong =>
        split at h
        next => exact absurd h (by simp)
        next => exact absurd h (by simp)
        next raw3 cols i houter =>
          have hbal : ColsBalanced cols := by
            refine longOuter_balanced K Padding kLEPB _ _ _ _ _ _ _ ?_ houter
            exact longLoop_balanced _ kLEPB 0 0 emptyCols
              (by simp [ColsBalanced, emptyCols])
          simp only [Except.ok.injEq, Prod.mk.injEq] at h
          rw [← h.2]
          obtain ⟨g1, g2, g3, g4, g5, g6⟩ := hbal
          exact ⟨g1, g2, g3, g4, g5, g6⟩
  · intro entries r j i cols hi hd
    rw [longLoop, if_pos ⟨hi, hd⟩]

/-- C6 counterexample: the chain `longFirst` (header word 102: declared
`n_steps = 1`, `n_blocks = 2`) has a zero-depth entry at index 1, yet the
assembler emits four entries — it keeps collecting from the second block
after the zero-depth stop — and the emitted length 4 differs from the
declared `n_steps = 102 / 100 = 1`. -/
theorem long_assembler_counterexample :
    longFirst.stepsAndBlocks / 100 = 1 ∧
    (longFirst.AsLongEntries.getD 1 default).fDepth = 0 ∧
    (ReadLongBlocks 2 1 3 stLong).map (fun p => (p.1, p.2.fCurrentShower.fDepth))
      = .ok (.eSuccess, [1, 2, 3, 4]) ∧
    ([1, 2, 3, 4] : List Int).length ≠ longFirst.stepsAndBlocks / 100 :=
  ⟨rfl, rfl, rfl, by decide⟩

/-- C6 witness: the balanced-columns and per-block-stop statements at
concrete inputs. -/
theorem long_assembler_columns_witness :
    ShowerProfileBalanced
      ({ isOpen := true, raw := ⟨[sectorLong], 1, 1, 0, false, sectorLong⟩,
         fIndex := { eventHeaders := [5], eventTrailers := [6], longBlocks := [0],
                     IDToPosition := [(7, 0)] },
         fCurrentPosition := 0, fObservationLevel := 1, fLongFile := false,
         sideProfiles := [],
         fCurrentShower :=
           { fHeader := default, fdEdX := [0, 0, 0, 0],
             fChargeProfile := [20, 20, 20, 20], fGammaProfile := [10, 10, 10, 10],
             fElectronProfile := [3, 3, 3, 3], fMuonProfile := [7, 7, 7, 7],
             fDepth_dE := [1, 2, 3, 4], fDepth := [1, 2, 3, 4],
             fGaisserHillas := [], fCalorimetricEnergy := 0 } } :
        CorsikaShowerFileState).fCurrentShower ∧
    longLoop [entD1, entD0] 2 1 1 emptyCols = (emptyCols, 1) :=
  ⟨(long_assembler_columns 2 1 3).1 stLong _ .eSuccess rfl rfl,
   (long_assembler_columns 2 1 3).2 [entD1, entD0] 1 1 1 emptyCols
     (by decide) rfl⟩
